import Mathlib

/-!
Verification of the agent-committee orchestrator.

Shallow embedding of the core: the task dispatcher (`processAllAgents`,
`orchestrateWorkflow` in src/orchestrator/agentProcessor.js), the aggregation
engine (`aggregate`, `heuristicScoring` in the committee aggregator), model
selection (`selectBestModel` in the base agent class), the Groq prompt
reduction (`truncatePrompt` in the Groq agent) and the environment helpers
(src/utils/env.js).

Conventions of the embedding:
* JS strings are `String`; the ids and texts involved are ASCII, so JS
  `toLowerCase`/`trim`/`substring` are modelled by ASCII versions over the
  character list.
* Remote calls (worker outcomes, the judge LLM, JSON.parse) are oracles passed
  as explicit function arguments; wall-clock timestamps and log output are not
  modelled.  The `setTimeout` sleeps of the retry loop are recorded as a list
  of waited milliseconds in an explicit trace.
* JS `Promise.all` over an array of already-caught computations preserves
  arity and order; it is modelled as an indexed map.
-/

/-- ASCII whitespace, the subset of the JS `\s` class used by this code base. -/
def isJsWs (c : Char) : Bool := c = ' ' || c = '\t' || c = '\n' || c = '\r'

/-- JS `String.prototype.toLowerCase`, restricted to ASCII. -/
def strLower (s : String) : String := ⟨s.data.map Char.toLower⟩

/-- JS `String.prototype.trim`, restricted to ASCII whitespace. -/
def strTrim (s : String) : String :=
  ⟨((s.data.dropWhile isJsWs).reverse.dropWhile isJsWs).reverse⟩

/-- JS `String.prototype.substring(0, n)`. -/
def strTake (s : String) (n : Nat) : String := ⟨s.data.take n⟩

/-- Substring occurrence on character lists. -/
def listContainsSub (hay pat : List Char) : Bool :=
  match hay with
  | [] => pat.isEmpty
  | _ :: t => pat.isPrefixOf hay || listContainsSub t pat

/-- JS `String.prototype.includes`. -/
def strContains (s pat : String) : Bool := listContainsSub s.data pat.data

/-- JS `String.prototype.startsWith`. -/
def strStarts (s pat : String) : Bool := pat.data.isPrefixOf s.data

/-- Indexed map, starting at index `i`; models a JS `.map((x, i) => ...)`. -/
def mapIdxFrom (f : Nat → α → β) : Nat → List α → List β
  | _, [] => []
  | i, a :: as => f i a :: mapIdxFrom f (i + 1) as

theorem mapIdxFrom_length (f : Nat → α → β) (i : Nat) (l : List α) :
    (mapIdxFrom f i l).length = l.length := by
  induction l generalizing i with
  | nil => rfl
  | cons a as ih => simp [mapIdxFrom, ih]

theorem mapIdxFrom_getElem? (f : Nat → α → β) (i j : Nat) (l : List α) :
    (mapIdxFrom f i l)[j]? = (l[j]?).map (f (i + j)) := by
  induction l generalizing i j with
  | nil => simp [mapIdxFrom]
  | cons a as ih =>
    cases j with
    | zero => simp [mapIdxFrom]
    | succ j =>
      simp only [mapIdxFrom, List.getElem?_cons_succ, ih (i + 1) j]
      have h : i + 1 + j = i + (j + 1) := by omega
      rw [h]

theorem isPrefixOf_self_append (l r : List Char) : l.isPrefixOf (l ++ r) = true := by
  induction l with
  | nil => cases r <;> rfl
  | cons a as ih => simp [List.isPrefixOf, ih]

theorem listContainsSub_append (pre pat suf : List Char) :
    listContainsSub (pre ++ (pat ++ suf)) pat = true := by
  induction pre with
  | nil =>
    cases pat with
    | nil => cases suf <;> simp [listContainsSub, List.isPrefixOf]
    | cons p pt =>
      simp only [List.nil_append, listContainsSub]
      rw [isPrefixOf_self_append]
      simp
  | cons a pre ih =>
    simp [listContainsSub, ih]

theorem strData_append (a b : String) : (a ++ b).data = a.data ++ b.data := rfl

/-! ## Environment helpers (src/utils/env.js) -/

/-- The raw provider key environment: one optional raw value per provider. -/
structure Env where
  openaiKey : Option String
  anthropicKey : Option String
  geminiKey : Option String
  groqKey : Option String
deriving DecidableEq

/-- Normalisation done inside `getApiKeys`: undefined, empty and
whitespace-only values become null. -/
def normKey : Option String → Option String
  | none => none
  | some k => if (strTrim k).data.isEmpty then none else some k

/-- `getApiKeys` (env.js lines 30-46). -/
def getApiKeys (env : Env) : List (String × Option String) :=
  [("openai", normKey env.openaiKey), ("anthropic", normKey env.anthropicKey),
   ("gemini", normKey env.geminiKey), ("groq", normKey env.groqKey)]

/-- `getAvailableProviders` (env.js lines 52-57). -/
def getAvailableProviders (env : Env) : List String :=
  ((getApiKeys env).filter (fun p =>
    match p.2 with
    | none => false
    | some k => !(strTrim k).data.isEmpty)).map (fun p => p.1)

/-- The provider priority order of `getDefaultProvider` (env.js line 91). -/
def providerPriority : List String := ["gemini", "groq", "anthropic", "openai"]

/-- `getDefaultProvider` (env.js lines 79-101). -/
def getDefaultProvider (env : Env) : Option String :=
  match getAvailableProviders env with
  | [] => none
  | [p] => some p
  | p :: q :: rest =>
    match providerPriority.find? (fun pr => (p :: q :: rest).contains pr) with
    | some pr => some pr
    | none => some p

/-- `isFallbackMode` (env.js lines 127-130). -/
def isFallbackMode (env : Env) : Bool := (getAvailableProviders env).isEmpty

theorem getDefaultProvider_isSome_of_not_fallback (env : Env)
    (h : isFallbackMode env = false) : (getDefaultProvider env).isSome = true := by
  unfold isFallbackMode at h
  cases hav : getAvailableProviders env with
  | nil => rw [hav] at h; simp at h
  | cons p rest =>
    cases rest with
    | nil => simp [getDefaultProvider, hav]
    | cons q rest2 =>
      simp only [getDefaultProvider, hav]
      rcases hf : providerPriority.find? (fun pr => (p :: q :: rest2).contains pr) with _ | pr <;>
        simp [hf]

/-! ## Task dispatcher (src/orchestrator/agentProcessor.js) -/

/-- A task definition from the external task catalog (`getAgents`). -/
structure AgentDef where
  name : String
  role : String
  description : String
  focus : String
deriving DecidableEq

/-- The `'='.repeat(80)` separator line of `processAgent`. -/
def eqLine : String := ⟨List.replicate 80 '='⟩

/-- Prompt assembly of `processAgent` (agentProcessor.js lines 41-59).  The
`guidelines` text comes from the external prompt-rendering collaborator
`getAgentGuidelines` and is passed in. -/
def buildAgentPrompt (a : AgentDef) (guidelines context : String) : String :=
  let base := "\n" ++ eqLine ++ "\n" ++ "AGENT: " ++ a.name ++ " (" ++ a.role ++ ")\n" ++
    eqLine ++ "\n\n" ++ guidelines
  let withCtx :=
    if context ≠ "" then
      base ++ "\n\n--- CONTEXT FROM OTHER CHAT WINDOWS ---\n" ++ context ++ "\n" ++
        "--- END CONTEXT ---\n\n" ++
        "IMPORTANT: Consider the above context when providing your analysis.\n" ++
        "Incorporate relevant information from other conversations.\n"
    else base
  withCtx ++ "\n\n--- AGENT OUTPUT REQUEST ---\n" ++
    "As " ++ a.role ++ ", analyze the task and provide:\n" ++
    "1. Your analysis and recommendations\n" ++
    "2. Code examples if applicable\n" ++
    "3. Best practices specific to your role\n" ++
    "4. Any concerns or considerations\n"

/-- How one execution unit settles, as seen by `processAgentWithWorker`
(agentProcessor.js lines 80-191): a success message, a failure message, or a
rejection (worker error event, abnormal exit, exit without message, or the
deadline timer).  `known` distinguishes WorkerError/TimeoutError rejections
from unexpected exceptions (line 316). -/
inductive WorkerOutcome where
  | msgSuccess (response : String)
  | msgFailure (errMsg : String)
  | rejected (known : Bool) (errMsg : String)
deriving DecidableEq

def WorkerOutcome.isSuccess : WorkerOutcome → Bool
  | .msgSuccess _ => true
  | _ => false

/-- One per-task entry of the result set returned by `processAllAgents`. -/
structure AgentResponse where
  agent : String
  role : String
  description : String
  focus : String
  prompt : String
  actualResponse : Option String
  error : Option String
  hasActualResponse : Bool
  success : Bool
  fallbackMode : Bool
deriving DecidableEq

/-- Trailing note of the fallback-mode response text (agentProcessor.js line 259). -/
def fallbackNote : String :=
  "\n\n⚠️  Note: No LLM API key configured. Set at least one API key in .env to get actual LLM responses."

/-- The fallback-mode response text (agentProcessor.js line 259). -/
def fallbackResponseText (agentName prompt : String) : String :=
  "[FALLBACK MODE] This is the generated prompt for " ++ agentName ++ ":\n\n" ++
    (prompt ++ fallbackNote)

/-- The per-task settlement of the parallel map (agentProcessor.js lines
285-328): a success message, a failure message, and a rejection each become
one entry; rejections from unexpected exceptions get an `Unexpected error: `
prefix (line 316-318). -/
def agentEntryOfOutcome (a : AgentDef) (prompt : String) : WorkerOutcome → AgentResponse
  | .msgSuccess r => ⟨a.name, a.role, a.description, a.focus, prompt, some r, none, true, true, false⟩
  | .msgFailure e => ⟨a.name, a.role, a.description, a.focus, prompt, none, some e, false, false, false⟩
  | .rejected known m =>
    ⟨a.name, a.role, a.description, a.focus, prompt, none,
      some (if known then m else "Unexpected error: " ++ m), false, false, false⟩

def configErrorMsg : String := "No available LLM provider"

/-- `processAllAgents` (agentProcessor.js lines 202-337).  The worker oracle
`outcomes` gives the settlement of the execution unit spawned for task `i`
(the best-available-model lookup of lines 216-244 only changes what the
workers are asked to run and is absorbed into that oracle; it cannot throw).
The second component of the `ok` payload counts the workers spawned. -/
def processAllAgents (env : Env) (agents : List AgentDef) (guidelines : AgentDef → String)
    (context : String) (provider : Option String) (outcomes : Nat → WorkerOutcome) :
    Except String (List AgentResponse × Nat) :=
  let targetProvider := match provider with | some p => some p | none => getDefaultProvider env
  if isFallbackMode env then
    .ok (agents.map (fun a =>
      let prompt := buildAgentPrompt a (guidelines a) context
      ⟨a.name, a.role, a.description, a.focus, prompt,
        some (fallbackResponseText a.name prompt), none, true, true, true⟩), 0)
  else
    match targetProvider with
    | none => .error configErrorMsg
    | some _ =>
      .ok (mapIdxFrom (fun i a =>
        agentEntryOfOutcome a (buildAgentPrompt a (guidelines a) context) (outcomes i)) 0 agents,
        agents.length)

/-! ## Model selection (BaseAgent.selectBestModel, agentProcessor.js lines 623-671) -/

/-- Character-code comparison used to model `localeCompare` on the ASCII model
ids this code handles. -/
def lexCmp : List Char → List Char → Int
  | [], [] => 0
  | [], _ :: _ => -1
  | _ :: _, [] => 1
  | a :: as, b :: bs =>
    if a.toNat < b.toNat then -1 else if b.toNat < a.toNat then 1 else lexCmp as bs

def localeCmp (a b : String) : Int := lexCmp a.data b.data

/-- Stable insertion used to model JS `Array.prototype.sort` (stable per
ES2019): an element is inserted before the first element it does not compare
after, so equal elements keep their relative order. -/
def jsInsert (cmp : α → α → Int) (a : α) : List α → List α
  | [] => [a]
  | b :: bs => if cmp a b ≤ 0 then a :: b :: bs else b :: jsInsert cmp a bs

/-- Stable sort modelling JS `Array.prototype.sort(comparator)`. -/
def jsSort (cmp : α → α → Int) : List α → List α
  | [] => []
  | a :: as => jsInsert cmp a (jsSort cmp as)

/-- The non-chat filter of `selectBestModel` (agentProcessor.js lines 629-637). -/
def chatFilter (models : List String) : List String :=
  models.filter (fun m =>
    let lower := strLower m
    !(strContains lower "embedding") && !(strContains lower "moderation") &&
      !(strContains lower "whisper") && !(strContains lower "dall-e") &&
      !(strContains lower "tts"))

/-- `/\d/.test(model)` (agentProcessor.js line 649). -/
def modelHasVersion (m : String) : Bool := m.data.any Char.isDigit

/-- The high-capability marker test (agentProcessor.js line 655). -/
def modelIsPro (m : String) : Bool :=
  let lower := strLower m
  strContains lower "pro" || strContains lower "sonnet" || strContains lower "opus"

/-- The economy marker test (agentProcessor.js line 661). -/
def modelIsMini (m : String) : Bool :=
  let lower := strLower m
  strContains lower "mini" || strContains lower "flash" || strContains lower "nano"

/-- The sort comparator of `selectBestModel` (agentProcessor.js lines 644-668). -/
def modelCompare (a b : String) : Int :=
  if modelHasVersion a && !(modelHasVersion b) then -1
  else if !(modelHasVersion a) && modelHasVersion b then 1
  else if modelIsPro a && !(modelIsPro b) then -1
  else if !(modelIsPro a) && modelIsPro b then 1
  else if !(modelIsMini a) && modelIsMini b then -1
  else if modelIsMini a && !(modelIsMini b) then 1
  else localeCmp a b

/-- `BaseAgent.selectBestModel` (agentProcessor.js lines 623-671): empty input
falls back to the provider default; if the non-chat filter empties the list
the raw first candidate is returned; otherwise the first element of the sorted
filtered list wins. -/
def selectBestModel (defaultModel : String) : List String → String
  | [] => defaultModel
  | m :: ms =>
    match jsSort modelCompare (chatFilter (m :: ms)) with
    | [] => m
    | best :: _ => best

/-! ## Aggregation engine (the committee aggregator) -/

/-- The final synthesis object produced by `aggregate` (and by the
orchestrator's catch), with the JS object fields that the callers read.
Absent JS fields are `none`. -/
structure SynthesisResult where
  winner : Option String
  synthesis : Option String
  recommendations : Option (List String)
  finalCode : Option String
  method : String
  allAgentsFailed : Bool
deriving DecidableEq

/-- A decoded judge verdict, as produced by `JSON.parse` on the extracted
block; each field may be absent. -/
structure ParsedVerdict where
  winner : Option String
  synthesis : Option String
  recommendations : Option (List String)
  finalCode : Option String
deriving DecidableEq

/-- The `{...parsed, method: 'llm'}` spread (aggregator lines 263-267). -/
def resultOfParsed (p : ParsedVerdict) : SynthesisResult :=
  ⟨p.winner, p.synthesis, p.recommendations, p.finalCode, "llm", false⟩

/-- The error-shape test of the all-errors short circuit (aggregator lines
197-203). -/
def isErrorShaped (output : String) : Bool :=
  strStarts output "Error:" || strContains (strLower output) "api error" ||
    strContains (strLower output) "failed"

def allAreErrors (agentOutputs : List (String × String)) : Bool :=
  agentOutputs.all (fun p => isErrorShaped p.2)

/-- The `Agent ${idx + 1}: ${err}` error summary (aggregator lines 207-209). -/
def errorSummaryOf (agentOutputs : List (String × String)) : String :=
  String.intercalate "\n"
    (mapIdxFrom (fun i p => "Agent " ++ toString (i + 1) ++ ": " ++ p.2) 0 agentOutputs)

def errorFallbackSynthesis (agentOutputs : List (String × String)) : String :=
  "All agents failed to process the request. Error details:\n\n" ++
    errorSummaryOf agentOutputs ++
    "\n\nPlease check your API keys, quotas, and network connectivity."

def errorFallbackRecommendations : List String :=
  ["Check API key configuration and quotas",
   "Verify network connectivity",
   "Review individual agent error messages above",
   "Consider using a different LLM provider if available"]

/-- The all-errors short-circuit result (aggregator lines 211-224). -/
def errorFallbackResult (agentOutputs : List (String × String)) : SynthesisResult :=
  ⟨none, some (errorFallbackSynthesis agentOutputs), some errorFallbackRecommendations,
    none, "error_fallback", true⟩

/-- The keyword list of the heuristic (aggregator line 151). -/
def actionableKeywords : List String :=
  ["implement", "recommend", "suggest", "should", "consider", "use", "create"]

/-- The per-response score of `heuristicScoring` (aggregator lines 136-155). -/
def scoreOf (response : String) : Nat :=
  let responseLower := strLower response
  let length := response.length
  let lenScore : Nat := if 200 < length ∧ length < 2000 then 2 else if 50 < length then 1 else 0
  let bulletScore : Nat := if strContains response "-" || strContains response "*" then 1 else 0
  let codeScore : Nat := if strContains response "```" then 1 else 0
  let paraScore : Nat := if strContains response "\n\n" then 1 else 0
  let keywordCount := (actionableKeywords.filter (fun kw => strContains responseLower kw)).length
  lenScore + bulletScore + codeScore + paraScore + min keywordCount 3

/-- The winner reduction of `heuristicScoring` (aggregator line 159):
`entries.reduce((a, b) => scores[a[0]] > scores[b[0]] ? a : b)` with the
score stored alongside each name (names are unique object keys). -/
def pickWinner (e : String × Nat) (l : List (String × Nat)) : String × Nat :=
  l.foldl (fun a b => if a.2 > b.2 then a else b) e

def scoredEntries (agentOutputs : List (String × String)) : List (String × Nat) :=
  agentOutputs.map (fun p => (p.1, scoreOf p.2))

/-- `heuristicScoring` (aggregator lines 131-173).  The reduce of line 159
throws on an empty object; `aggregate` never reaches it with one, so the
empty case yields a `none` winner here. -/
def heuristicScoring (agentOutputs : List (String × String)) : SynthesisResult :=
  let winner : Option String :=
    match scoredEntries agentOutputs with
    | [] => none
    | e :: rest => some (pickWinner e rest).1
  let synthesis := String.intercalate "\n\n"
    (agentOutputs.map (fun p => "[" ++ p.1 ++ "]: " ++ strTake p.2 300 ++ "..."))
  ⟨winner, some synthesis,
    some ["Review all agent outputs", "Implement best practices from winner"],
    none, "heuristic", false⟩

/-- The rate-limit classification of a judge failure (aggregator lines 284-288). -/
def isRateLimit (msg : String) : Bool :=
  strContains msg "429" || strContains (strLower msg) "rate limit" ||
    strContains (strLower msg) "requests per min"

def digitsToNat (ds : List Char) : Nat := ds.foldl (fun n c => n * 10 + (c.toNat - 48)) 0

/-- Case-insensitive literal prefix test (regex `/i` flag, ASCII). -/
def ciPrefix : List Char → List Char → Bool
  | [], _ => true
  | _ :: _, [] => false
  | p :: ps, c :: cs => (p.toLower == c.toLower) && ciPrefix ps cs

def retryAfterPat : List Char := "try again in ".data

/-- Leftmost match of `/try again in (\d+)s/i` (aggregator line 240): a
case-insensitive occurrence of the literal, a nonempty digit run, then `s`. -/
def findRetryAfter : List Char → Option Nat
  | [] => none
  | l@(_ :: rest) =>
    if ciPrefix retryAfterPat l then
      let after := l.drop retryAfterPat.length
      let ds := after.takeWhile Char.isDigit
      if !ds.isEmpty &&
          (match after.drop ds.length with
           | c :: _ => c.toLower == 's'
           | [] => false) then
        some (digitsToNat ds)
      else findRetryAfter rest
    else findRetryAfter rest

def parseRetryAfter (msg : String) : Option Nat := findRetryAfter msg.data

/-- The retry base delay (aggregator lines 238-244): a parsed
`try again in Ns` hint in seconds times 1000, else 20000 ms. -/
def computeBaseDelay (lastError : Option String) : Nat :=
  match lastError with
  | none => 20000
  | some m =>
    match parseRetryAfter m with
    | some s => s * 1000
    | none => 20000

def braceOpen : Char := Char.ofNat 123

def braceClose : Char := Char.ofNat 125

def idxOfChar (c : Char) : List Char → Option Nat
  | [] => none
  | d :: t => if d == c then some 0 else (idxOfChar c t).map (· + 1)

def lastIdxOfChar (c : Char) (l : List Char) : Option Nat :=
  (idxOfChar c l.reverse).map (fun i => l.length - 1 - i)

/-- `response.match(/\{[\s\S]*\}/)` (aggregator line 259): the greedy match
runs from the first opening brace to the last closing brace after it. -/
def jsonExtract (response : String) : Option String :=
  let l := response.data
  match idxOfChar braceOpen l, lastIdxOfChar braceClose l with
  | some i, some j => if i < j then some ⟨(l.drop i).take (j - i + 1)⟩ else none
  | _, _ => none

/-- One judge invocation (`aggregatorAgent.process`) either returns the reply
text or throws with a message. -/
inductive JudgeOutcome where
  | ok (response : String)
  | err (message : String)
deriving DecidableEq

def JudgeOutcome.isErr : JudgeOutcome → Bool
  | .ok _ => false
  | .err _ => true

def JudgeOutcome.isRateLimitErr : JudgeOutcome → Bool
  | .ok _ => false
  | .err m => isRateLimit m

def JudgeOutcome.errMsg : JudgeOutcome → String
  | .ok _ => ""
  | .err m => m

/-- The fall-through result when no JSON block is found or decoding fails
(aggregator lines 273-281): the whole reply is the synthesis and the winner
defaults to the first task name. -/
def llmFallThrough (keys : List String) (response : String) : SynthesisResult :=
  ⟨keys.head?, some response,
    some ["Review the synthesis above", "Implement based on agent recommendations"],
    none, "llm", false⟩

/-- Handling of a successful judge reply (aggregator lines 256-281). -/
def llmResultOf (keys : List String) (parse : String → Option ParsedVerdict)
    (response : String) : SynthesisResult :=
  match jsonExtract response with
  | some block =>
    match parse block with
    | some p => resultOfParsed p
    | none => llmFallThrough keys response
  | none => llmFallThrough keys response

def maxRetries : Nat := 2

/-- Trace of the judged path: total `process` attempts made and the sleeps
(milliseconds) performed before retries. -/
structure AggTrace where
  attempts : Nat
  delays : List Nat
deriving DecidableEq

/-- The retry loop `for (attempt = 0; attempt <= maxRetries; attempt++)`
(aggregator lines 234-304).  `fuel` starts at `maxRetries + 1`, matching the
loop bound; the fuel-0 arm is unreachable from `aggregate`.  Returns the
judged result when one was produced (`none` means fall through to the
heuristic), the number of attempts made, and the recorded retry delays
(`baseDelay * attempt`, line 247). -/
def aggLoop (call : Nat → JudgeOutcome) (parse : String → Option ParsedVerdict)
    (keys : List String) : Nat → Nat → Option String → List Nat →
    Option SynthesisResult × Nat × List Nat
  | 0, attempt, _, delays => (none, attempt, delays)
  | fuel + 1, attempt, lastError, delays =>
    let delays := if attempt > 0 then delays ++ [computeBaseDelay lastError * attempt] else delays
    match call attempt with
    | .ok response => (some (llmResultOf keys parse response), attempt + 1, delays)
    | .err m =>
      if isRateLimit m && decide (attempt < maxRetries) then
        aggLoop call parse keys fuel (attempt + 1) (some m) delays
      else (none, attempt + 1, delays)

/-- `aggregate` (aggregator lines 183-314).  The judge argument is `none` when
`createAggregatorAgent` returns null (no provider or key resolvable), and the
parse oracle models `JSON.parse` on the extracted block.  `.error` models the
two `ValidationError` throws. -/
def aggregate (agentOutputs : List (String × String)) (originalRequest : String)
    (judge : Option (Nat → JudgeOutcome)) (parse : String → Option ParsedVerdict) :
    Except String (SynthesisResult × AggTrace) :=
  if agentOutputs.isEmpty then
    .error "No agent outputs provided for aggregation"
  else if (strTrim originalRequest).data.isEmpty then
    .error "Original request is required and must be a non-empty string"
  else if allAreErrors agentOutputs then
    .ok (errorFallbackResult agentOutputs, ⟨0, []⟩)
  else
    match judge with
    | some call =>
      match aggLoop call parse (agentOutputs.map Prod.fst) (maxRetries + 1) 0 none [] with
      | (some r, attempts, delays) => .ok (r, ⟨attempts, delays⟩)
      | (none, attempts, delays) => .ok (heuristicScoring agentOutputs, ⟨attempts, delays⟩)
    | none => .ok (heuristicScoring agentOutputs, ⟨0, []⟩)

/-! ## Workflow orchestration (agentProcessor.js lines 350-449) -/

/-- Output collection of the orchestrator (lines 374-382): successful agents
with a truthy response contribute their text, others an `Error: `-prefixed
message or, lacking one, their prompt. -/
def collectOutputs (agentResponses : List AgentResponse) : List (String × String) :=
  agentResponses.map (fun r =>
    (r.agent,
      match r.actualResponse with
      | some s =>
        if r.success && !(s == "") then s
        else match r.error with
          | some e => "Error: " ++ e
          | none => r.prompt
      | none =>
        match r.error with
        | some e => "Error: " ++ e
        | none => r.prompt))

/-- The catch-all synthesis of the orchestrator (lines 396-404), produced when
`aggregate` throws. -/
def fallbackSynthesisOf (agentResponses : List AgentResponse) : SynthesisResult :=
  ⟨some ((agentResponses.head?.map (fun r => r.agent)).getD "Unknown"),
    some "Aggregation failed. Please review individual agent outputs.",
    some ["Review all agent outputs manually"], none, "fallback", false⟩

/-- The parts of the orchestrator's return object (lines 409-448) the claims
read. -/
structure WorkflowResult where
  agents : List AgentResponse
  finalSynthesis : SynthesisResult
  processedAgents : Nat
  successfulAgents : Nat
  failedAgents : Nat
deriving DecidableEq

/-- `orchestrateWorkflow` (agentProcessor.js lines 350-449).  The judge and
parse oracles play the role of the aggregator agent built from
`aggregatorProvider`/`aggregatorModel`; the `finalSynthesis` projection of
lines 436-443 defaults `recommendations` to `[]` and nulls a falsy
`finalCode`. -/
def orchestrateWorkflow (env : Env) (agents : List AgentDef) (guidelines : AgentDef → String)
    (userRequest context : String) (provider : Option String)
    (outcomes : Nat → WorkerOutcome) (judge : Option (Nat → JudgeOutcome))
    (parse : String → Option ParsedVerdict) : Except String WorkflowResult :=
  match processAllAgents env agents guidelines context provider outcomes with
  | .error e => .error e
  | .ok (agentResponses, _) =>
    let agentOutputs := collectOutputs agentResponses
    let finalSynthesis :=
      match aggregate agentOutputs userRequest judge parse with
      | .ok (r, _) => r
      | .error _ => fallbackSynthesisOf agentResponses
    .ok ⟨agentResponses,
      ⟨finalSynthesis.winner, finalSynthesis.synthesis,
        some (finalSynthesis.recommendations.getD []),
        (match finalSynthesis.finalCode with
         | some s => if s == "" then none else some s
         | none => none),
        finalSynthesis.method, finalSynthesis.allAgentsFailed⟩,
      agentResponses.length,
      (agentResponses.filter (fun a => a.success)).length,
      (agentResponses.filter (fun a => !a.success)).length⟩

/-! ## Groq prompt reduction (the Groq agent variant) -/

/-- `GroqAgent.estimateTokens` (Groq agent lines 32-36): `Math.ceil(len / 3)`,
0 for a falsy text. -/
def estimateTokens (text : String) : Nat :=
  if text.data.isEmpty then 0 else (text.length + 2) / 3

/-- `this.maxInputTokens` (Groq agent line 23). -/
def groqMaxInputTokens : Nat := 2000

/-- Generic leftmost-occurrence regex scan: try a matcher at every suffix in
order, as a JS regex engine advances its start position. -/
def scanMatch (tryAt : List Char → Option α) : List Char → Option α
  | [] => tryAt []
  | l@(_ :: rest) =>
    match tryAt l with
    | some r => some r
    | none => scanMatch tryAt rest

/-- `/AGENT:\s*([^\n\(]+)\s*\(([^\)]+)\)/` tried at one position (Groq agent
line 58).  Whitespace-only captures reachable only through regex backtracking
are not modelled; such captures trim to the empty string downstream. -/
def tryAgent1 (l : List Char) : Option (String × String) :=
  if "AGENT:".data.isPrefixOf l then
    let afterWs := (l.drop 6).dropWhile isJsWs
    let g1 := afterWs.takeWhile (fun c => (c != '\n') && (c != '('))
    if g1.isEmpty then none
    else
      match (afterWs.drop g1.length).dropWhile isJsWs with
      | c :: rest2 =>
        if c == '(' then
          let g2 := rest2.takeWhile (fun d => d != ')')
          if !g2.isEmpty && ((rest2.drop g2.length).head? == some ')') then
            some (⟨g1⟩, ⟨g2⟩)
          else none
        else none
      | [] => none
  else none

def matchAgentPattern1 (s : String) : Option (String × String) := scanMatch tryAgent1 s.data

/-- `/Role:\s*([^\n]+)/` tried at one position (Groq agent line 64). -/
def tryRole (l : List Char) : Option String :=
  if "Role:".data.isPrefixOf l then
    let after := (l.drop 5).dropWhile isJsWs
    let g := after.takeWhile (fun c => c != '\n')
    if g.isEmpty then none else some ⟨g⟩
  else none

def matchRolePattern (s : String) : Option String := scanMatch tryRole s.data

/-- `/(?:FRONTEND|BACKEND|FULLSTACK)?\s*AGENT:\s*([^\n\(]+)/` tried at one
position (Groq agent line 69); the optional leading word only shifts the match
start and never changes the capture, which is determined by the text after the
first viable `AGENT:`. -/
def tryAgentName (l : List Char) : Option String :=
  if "AGENT:".data.isPrefixOf l then
    let after := (l.drop 6).dropWhile isJsWs
    let g := after.takeWhile (fun c => (c != '\n') && (c != '('))
    if g.isEmpty then none else some ⟨g⟩
  else none

def matchAgentNamePattern (s : String) : Option String := scanMatch tryAgentName s.data

/-- The lookahead `(?=\n\n|\n---|$)` of the task regex (Groq agent line 86);
without the `m` flag, `$` also matches just before a final newline. -/
def taskLookahead : List Char → Bool
  | [] => true
  | ['\n'] => true
  | '\n' :: '\n' :: _ => true
  | '\n' :: '-' :: '-' :: '-' :: _ => true
  | _ => false

/-- Lazy expansion of `(?:\n[^\n]+)*?` until the lookahead holds.  Each step
consumes at least two characters, so fuel `rest.length + 1` never runs out. -/
def taskExtend (acc : List Char) : Nat → List Char → Option (List Char)
  | 0, _ => none
  | fuel + 1, rest =>
    if taskLookahead rest then some acc
    else
      match rest with
      | '\n' :: rest2 =>
        let line := rest2.takeWhile (fun c => c != '\n')
        if line.isEmpty then none
        else taskExtend (acc ++ '\n' :: line) fuel (rest2.drop line.length)
      | _ => none

/-- `/Task:\s*([^\n]+(?:\n[^\n]+)*?)(?=\n\n|\n---|$)/s` tried at one position
(Groq agent line 86). -/
def tryTask (l : List Char) : Option String :=
  if "Task:".data.isPrefixOf l then
    let after := (l.drop 5).dropWhile isJsWs
    let line1 := after.takeWhile (fun c => c != '\n')
    if line1.isEmpty then none
    else
      let rest := after.drop line1.length
      (taskExtend line1 (rest.length + 1) rest).map (fun cap => (⟨cap⟩ : String))
  else none

def matchTaskPattern (s : String) : Option String := scanMatch tryTask s.data

/-- `prompt.split('\n')` (Groq agent line 96). -/
def splitLines (s : String) : List String := (s.data.splitOn '\n').map (fun l => (⟨l⟩ : String))

/-- The fallback scan for a line mentioning the task (Groq agent lines 96-104). -/
def firstTaskLine (s : String) : Option String :=
  (splitLines s).find? (fun line =>
    strContains (strLower line) "task:" || strContains (strLower line) "request:")

/-- `/You are [^\n]+/` and `/Task: [^\n]+/` (Groq agent lines 119-120): the
matched text is the literal plus the rest of the line. -/
def tryLiteralLine (pat : List Char) (l : List Char) : Option String :=
  if pat.isPrefixOf l then
    let run := (l.drop pat.length).takeWhile (fun c => c != '\n')
    if run.isEmpty then none else some ⟨pat ++ run⟩
  else none

def matchYouAreLine (s : String) : Option String := scanMatch (tryLiteralLine "You are ".data) s.data

def matchTaskLine (s : String) : Option String := scanMatch (tryLiteralLine "Task: ".data) s.data

/-- `GroqAgent.truncatePrompt` (Groq agent lines 44-131).  Note that the
source computes `estimatedTokens` on line 45 and never uses it: the reduction
below runs unconditionally. -/
def truncatePrompt (prompt : String) : String :=
  let maxChars := (groqMaxInputTokens - 300) * 3
  let nameRole : String × String :=
    match matchAgentPattern1 prompt with
    | some (g1, g2) => (strTrim g1, strTrim g2)
    | none =>
      ((match matchAgentNamePattern prompt with | some a => strTrim a | none => ""),
       (match matchRolePattern prompt with | some r => strTrim r | none => ""))
  let agentName := nameRole.1
  let role := nameRole.2
  let result :=
    if agentName ≠ "" ∧ role ≠ "" then "You are " ++ agentName ++ ", a " ++ role ++ ".\n\n"
    else if role ≠ "" then "You are a " ++ role ++ ".\n\n"
    else if agentName ≠ "" then "You are " ++ agentName ++ ".\n\n"
    else ""
  let result := result ++
    (match matchTaskPattern prompt with
     | some cap =>
       let task := strTrim cap
       "Task: " ++ (if task.length > 400 then strTake task 397 ++ "..." else task) ++ "\n\n"
     | none =>
       match firstTaskLine prompt with
       | some line =>
         (if line.length > 300 then strTake line 297 ++ "..." else line) ++ "\n\n"
       | none => "")
  let result := result ++
    "Provide a concise analysis and recommendations. Keep response under 250 tokens.\n"
  let result :=
    if result.length > maxChars then strTake result (maxChars - 50) ++ "\n[Truncated]" else result
  if estimateTokens result > groqMaxInputTokens then
    let roleLine := (matchYouAreLine result).getD ""
    let taskLine := (matchTaskLine result).getD ""
    let minimalPrompt := roleLine ++ "\n\n" ++ taskLine ++ "\n\nProvide brief analysis."
    if estimateTokens minimalPrompt ≤ groqMaxInputTokens then minimalPrompt
    else strTake result ((groqMaxInputTokens - 100) * 3)
  else result

/-- `GroqAgent.process` (Groq agent lines 179-218) always sends
`this.truncatePrompt(prompt)` as the message content (lines 187 and 204). -/
def groqSentPrompt (prompt : String) : String := truncatePrompt prompt

/-! ## Shared lemmas -/

theorem listContainsSub_append_left (xs ys pat : List Char)
    (h : listContainsSub ys pat = true) : listContainsSub (xs ++ ys) pat = true := by
  induction xs with
  | nil => simpa using h
  | cons a xs ih => simp [listContainsSub, ih]

theorem strContains_append_right (x y pat : String) (h : strContains y pat = true) :
    strContains (x ++ y) pat = true := by
  unfold strContains at h ⊢
  rw [strData_append]
  exact listContainsSub_append_left _ _ _ h

theorem strContains_append_self (pat suf : String) : strContains (pat ++ suf) pat = true := by
  unfold strContains
  rw [strData_append]
  have h := listContainsSub_append [] pat.data suf.data
  simpa using h

/-- The foldl of aggregator line 159 returns an entry of maximal score, and it
is the last entry attaining that maximum: every entry after it scores
strictly less. -/
theorem pickWinner_spec (e : String × Nat) (l : List (String × Nat)) :
    ∃ pre post, e :: l = pre ++ pickWinner e l :: post ∧
      (∀ x ∈ e :: l, x.2 ≤ (pickWinner e l).2) ∧
      (∀ x ∈ post, x.2 < (pickWinner e l).2) := by
  induction l generalizing e with
  | nil =>
    refine ⟨[], [], rfl, ?_, by simp⟩
    intro x hx
    simp only [List.mem_singleton] at hx
    simp [hx, pickWinner]
  | cons b t ih =>
    have hstep : pickWinner e (b :: t) = pickWinner (if e.2 > b.2 then e else b) t := rfl
    by_cases h : e.2 > b.2
    · rw [hstep, if_pos h]
      obtain ⟨pre, post, hdec, hmax, hpost⟩ := ih e
      cases pre with
      | nil =>
        simp only [List.nil_append, List.cons.injEq] at hdec
        obtain ⟨hw, ht⟩ := hdec
        refine ⟨[], b :: t, by rw [List.nil_append, ← hw], ?_, ?_⟩
        · intro x hx
          rcases List.mem_cons.mp hx with hx | hx
          · subst hx; exact hmax x (List.mem_cons_self _ _)
          · rcases List.mem_cons.mp hx with hx | hx
            · subst hx
              have he : e.2 ≤ (pickWinner e t).2 := hmax e (List.mem_cons_self _ _)
              omega
            · exact hmax x (List.mem_cons_of_mem _ (ht ▸ hx))
        · intro x hx
          rcases List.mem_cons.mp hx with hx | hx
          · subst hx
            have he : e.2 ≤ (pickWinner e t).2 := hmax e (List.mem_cons_self _ _)
            omega
          · exact hpost x (ht ▸ hx)
      | cons p0 pre2 =>
        simp only [List.cons_append, List.cons.injEq] at hdec
        obtain ⟨hp0, ht⟩ := hdec
        refine ⟨e :: b :: pre2, post, ?_, ?_, hpost⟩
        · conv_lhs => rw [ht]
          simp
        · intro x hx
          rcases List.mem_cons.mp hx with hx | hx
          · rw [hx]; exact hmax e (List.mem_cons_self _ _)
          · rcases List.mem_cons.mp hx with hx | hx
            · subst hx
              have he : e.2 ≤ (pickWinner e t).2 := hmax e (List.mem_cons_self _ _)
              omega
            · exact hmax x (List.mem_cons_of_mem _ hx)
    · rw [hstep, if_neg h]
      obtain ⟨pre, post, hdec, hmax, hpost⟩ := ih b
      refine ⟨e :: pre, post, ?_, ?_, hpost⟩
      · conv_lhs => rw [show b :: t = pre ++ pickWinner b t :: post from hdec]
        simp
      · intro x hx
        rcases List.mem_cons.mp hx with hx | hx
        · subst hx
          have hb : b.2 ≤ (pickWinner b t).2 := hmax b (List.mem_cons_self _ _)
          omega
        · exact hmax x hx

/-! ## Claim C4: model selection -/

/-- C4 counterexample: on the candidate list `["alpha-2.0", "alpha-2.0-mini",
"embed-small"]` the non-chat filter of `selectBestModel` keeps  `"embed-small"`
— the filter looks for the substring `"embedding"`, which that id does not
contain — refuting the claim that the embedding id is excluded before
ranking. -/
theorem c4_model_selection_counterexample :
    chatFilter ["alpha-2.0", "alpha-2.0-mini", "embed-small"] =
      ["alpha-2.0", "alpha-2.0-mini", "embed-small"] ∧
    "embed-small" ∈ chatFilter ["alpha-2.0", "alpha-2.0-mini", "embed-small"] := by
  decide

/-- C4, amended: on `["alpha-2.0", "alpha-2.0-mini", "embed-small"]` the id
`"embed-small"` is not excluded (only names containing `embedding`,
`moderation`, `whisper`, `dall-e` or `tts` are); it merely ranks last for
lack of a version digit, `"alpha-2.0"` still outranks `"alpha-2.0-mini"` and
is selected; and when exclusion empties a nonempty candidate list,
`selectBestModel` returns the raw first candidate. -/
theorem c4_model_selection_amended (d : String) (m : String) (ms : List String)
    (hempty : chatFilter (m :: ms) = []) :
    selectBestModel d ["alpha-2.0", "alpha-2.0-mini", "embed-small"] = "alpha-2.0" ∧
    "embed-small" ∈ chatFilter ["alpha-2.0", "alpha-2.0-mini", "embed-small"] ∧
    selectBestModel d (m :: ms) = m := by
  refine ⟨rfl, by decide, ?_⟩
  have hh : selectBestModel d (m :: ms) =
      match jsSort modelCompare (chatFilter (m :: ms)) with
      | [] => m
      | best :: _ => best := rfl
  rw [hh, hempty]
  rfl

theorem c4_witness :
    chatFilter ["tts-1"] = [] ∧
    (selectBestModel "x" ["alpha-2.0", "alpha-2.0-mini", "embed-small"] = "alpha-2.0" ∧
     "embed-small" ∈ chatFilter ["alpha-2.0", "alpha-2.0-mini", "embed-small"] ∧
     selectBestModel "x" ["tts-1"] = "tts-1") :=
  ⟨by decide, c4_model_selection_amended "x" "tts-1" [] (by decide)⟩

/-! ## Claim C5: heuristic winner and tie-break -/

/-- C5 counterexample: two identically scored outputs in submission order
`A, B` — the reduce of `heuristicScoring` keeps the strictly greater
accumulator only, so on a tie the later entry wins: the winner is `B`, not
the first-encountered `A`. -/
theorem c5_tie_break_counterexample :
    scoredEntries [("A", "x"), ("B", "x")] = [("A", 0), ("B", 0)] ∧
    (heuristicScoring [("A", "x"), ("B", "x")]).winner = some "B" ∧
    (heuristicScoring [("A", "x"), ("B", "x")]).winner ≠ some "A" := by
  decide

/-- C5, amended: for every nonempty agent-output set (with the distinct names
a JS object guarantees), the heuristic winner is an entry of maximal score,
and among equally scored entries it is the last one in submission order:
every later entry scores strictly less. -/
theorem c5_heuristic_winner_amended (agentOutputs : List (String × String))
    (hne : agentOutputs ≠ []) (_hnodup : (agentOutputs.map Prod.fst).Nodup) :
    ∃ pre post w, scoredEntries agentOutputs = pre ++ w :: post ∧
      (∀ x ∈ scoredEntries agentOutputs, x.2 ≤ w.2) ∧
      (∀ x ∈ post, x.2 < w.2) ∧
      (heuristicScoring agentOutputs).winner = some w.1 := by
  cases hs : scoredEntries agentOutputs with
  | nil =>
    exfalso
    apply hne
    have hlen := congrArg List.length hs
    simp only [scoredEntries, List.length_map, List.length_nil] at hlen
    exact List.length_eq_zero.mp hlen
  | cons e rest =>
    obtain ⟨pre, post, hdec, hmax, hpost⟩ := pickWinner_spec e rest
    exact ⟨pre, post, pickWinner e rest, hdec, hmax, hpost, by simp only [heuristicScoring, hs]⟩

theorem c5_witness :
    [("A", "x"), ("B", "x")] ≠ ([] : List (String × String)) ∧
    ([("A", "x"), ("B", "x")].map Prod.fst).Nodup ∧
    (∃ pre post w, scoredEntries [("A", "x"), ("B", "x")] = pre ++ w :: post ∧
      (∀ x ∈ scoredEntries [("A", "x"), ("B", "x")], x.2 ≤ w.2) ∧
      (∀ x ∈ post, x.2 < w.2) ∧
      (heuristicScoring [("A", "x"), ("B", "x")]).winner = some w.1) :=
  ⟨by decide, by decide,
    c5_heuristic_winner_amended [("A", "x"), ("B", "x")] (by decide) (by decide)⟩

/-! ## Claim C6: Groq prompt reduction -/

/-- C6: the lossy Groq reduction is not guarded by the input budget — the
source computes `estimatedTokens` and never tests it, so `process` rewrites
even a tiny prompt.  At the failing input `"hello"` (an estimated 2 tokens,
far under the 2000-token budget) the text sent to the backend is the
instruction stub, not the prompt, contradicting the claim (and the code's own
comment `Truncate prompt if it's too long for Groq's context limits`). -/
theorem c6_groq_unconditional_reduction :
    estimateTokens "hello" ≤ groqMaxInputTokens ∧
    groqSentPrompt "hello" ≠ "hello" ∧
    groqSentPrompt "hello" =
      "Provide a concise analysis and recommendations. Keep response under 250 tokens.\n" := by
  decide

/-! ## Claim C2: all-errors short circuit -/

/-- A parse oracle on which `JSON.parse` always fails. -/
def noParse : String → Option ParsedVerdict := fun _ => none

/-- C2 counterexample: with every agent output error-shaped, `aggregate`
returns four remediation recommendations, not two, and its synthesis is a
wrapper template around the indexed error messages, not the bare
concatenation. -/
theorem c2_error_fallback_counterexample :
    (aggregate [("A", "Error: x"), ("B", "Error: y")] "req" none noParse).toOption.map
      (fun p => (p.1.recommendations.getD []).length) = some 4 ∧
    (aggregate [("A", "Error: x"), ("B", "Error: y")] "req" none noParse).toOption.map
      (fun p => (p.1.recommendations.getD []).length) ≠ some 2 ∧
    (aggregate [("A", "Error: x"), ("B", "Error: y")] "req" none noParse).toOption.map
      (fun p => p.1.synthesis) ≠ some (some "Error: x\nError: y") := by
  decide

/-- C2, amended: for every nonempty aggregation input with a nonempty request
in which every output is error-shaped, `aggregate` returns immediately —
zero judge attempts, for any judge and parse oracle — with the
`error_fallback` method, no winner, a synthesis embedding each error message
prefixed by its 1-based agent index inside a fixed explanatory template, and
exactly four generic remediation recommendations. -/
theorem c2_error_fallback_amended (agentOutputs : List (String × String))
    (originalRequest : String) (judge : Option (Nat → JudgeOutcome))
    (parse : String → Option ParsedVerdict)
    (hne : agentOutputs ≠ []) (hreq : (strTrim originalRequest).data ≠ [])
    (herr : allAreErrors agentOutputs = true) :
    aggregate agentOutputs originalRequest judge parse =
      .ok (⟨none, some (errorFallbackSynthesis agentOutputs),
        some errorFallbackRecommendations, none, "error_fallback", true⟩, ⟨0, []⟩) ∧
    errorFallbackRecommendations.length = 4 := by
  constructor
  · unfold aggregate
    rw [if_neg (by simpa using hne), if_neg (by simpa using hreq), if_pos herr]
    rfl
  · decide

theorem c2_witness :
    ([("A", "Error: x")] : List (String × String)) ≠ [] ∧
    (strTrim "r").data ≠ [] ∧
    allAreErrors [("A", "Error: x")] = true ∧
    (aggregate [("A", "Error: x")] "r" none noParse =
      .ok (⟨none, some (errorFallbackSynthesis [("A", "Error: x")]),
        some errorFallbackRecommendations, none, "error_fallback", true⟩, ⟨0, []⟩) ∧
     errorFallbackRecommendations.length = 4) :=
  ⟨by decide, by decide, by decide,
    c2_error_fallback_amended [("A", "Error: x")] "r" none noParse
      (by decide) (by decide) (by decide)⟩

/-! ## Judged-path lemmas -/

/-- Under valid, not-all-error inputs, `aggregate` with a judge runs the retry
loop and post-processes its outcome. -/
theorem aggregate_judged_branch (agentOutputs : List (String × String))
    (originalRequest : String) (call : Nat → JudgeOutcome)
    (parse : String → Option ParsedVerdict)
    (hne : agentOutputs ≠ []) (hreq : (strTrim originalRequest).data ≠ [])
    (herr : allAreErrors agentOutputs = false) :
    aggregate agentOutputs originalRequest (some call) parse =
      match aggLoop call parse (agentOutputs.map Prod.fst) (maxRetries + 1) 0 none [] with
      | (some r, attempts, delays) => .ok (r, ⟨attempts, delays⟩)
      | (none, attempts, delays) => .ok (heuristicScoring agentOutputs, ⟨attempts, delays⟩) := by
  unfold aggregate
  rw [if_neg (by simpa using hne), if_neg (by simpa using hreq), if_neg (by simp [herr])]

/-! ## Claim C3: retry bound of the judged path -/

/-- C3: with a judge present and valid, not-all-error inputs: if every
invocation fails rate-limited, the loop makes exactly 3 attempts
(1 initial + 2 retries) and the result is the heuristic one; if the first
invocation fails with a non-rate-limit error, the judged path is abandoned
after that single attempt and the result is the heuristic one. -/
theorem c3_judged_retry_bound (agentOutputs : List (String × String))
    (originalRequest : String) (call : Nat → JudgeOutcome)
    (parse : String → Option ParsedVerdict)
    (hne : agentOutputs ≠ []) (hreq : (strTrim originalRequest).data ≠ [])
    (herr : allAreErrors agentOutputs = false) :
    ((∀ k, k < 3 → (call k).isRateLimitErr = true) →
      ∃ ds, aggregate agentOutputs originalRequest (some call) parse =
        .ok (heuristicScoring agentOutputs, ⟨3, ds⟩)) ∧
    ((call 0).isErr = true → (call 0).isRateLimitErr = false →
      aggregate agentOutputs originalRequest (some call) parse =
        .ok (heuristicScoring agentOutputs, ⟨1, []⟩)) := by
  constructor
  · intro hrl
    cases hc0 : call 0 with
    | ok r => have h := hrl 0 (by omega); rw [hc0] at h; simp [JudgeOutcome.isRateLimitErr] at h
    | err m0 =>
      cases hc1 : call 1 with
      | ok r => have h := hrl 1 (by omega); rw [hc1] at h; simp [JudgeOutcome.isRateLimitErr] at h
      | err m1 =>
        cases hc2 : call 2 with
        | ok r =>
          have h := hrl 2 (by omega); rw [hc2] at h; simp [JudgeOutcome.isRateLimitErr] at h
        | err m2 =>
          have hr0 : isRateLimit m0 = true := by
            have h := hrl 0 (by omega); rw [hc0] at h; simpa [JudgeOutcome.isRateLimitErr] using h
          have hr1 : isRateLimit m1 = true := by
            have h := hrl 1 (by omega); rw [hc1] at h; simpa [JudgeOutcome.isRateLimitErr] using h
          have hr2 : isRateLimit m2 = true := by
            have h := hrl 2 (by omega); rw [hc2] at h; simpa [JudgeOutcome.isRateLimitErr] using h
          refine ⟨[computeBaseDelay (some m0) * 1, computeBaseDelay (some m1) * 2], ?_⟩
          rw [aggregate_judged_branch agentOutputs originalRequest call parse hne hreq herr]
          have hl : aggLoop call parse (agentOutputs.map Prod.fst) (maxRetries + 1) 0 none [] =
              (none, 3, [computeBaseDelay (some m0) * 1, computeBaseDelay (some m1) * 2]) := by
            simp [aggLoop, hc0, hc1, hc2, hr0, hr1, hr2, maxRetries]
          rw [hl]
  · intro hiserr hnotrl
    cases hc0 : call 0 with
    | ok r => rw [hc0] at hiserr; simp [JudgeOutcome.isErr] at hiserr
    | err m0 =>
      have hr0 : isRateLimit m0 = false := by
        rw [hc0] at hnotrl; simpa [JudgeOutcome.isRateLimitErr] using hnotrl
      rw [aggregate_judged_branch agentOutputs originalRequest call parse hne hreq herr]
      have hl : aggLoop call parse (agentOutputs.map Prod.fst) (maxRetries + 1) 0 none [] =
          (none, 1, []) := by
        simp [aggLoop, hc0, hr0]
      rw [hl]

theorem c3_witness :
    ([("A", "fine answer")] : List (String × String)) ≠ [] ∧
    (strTrim "r").data ≠ [] ∧
    allAreErrors [("A", "fine answer")] = false ∧
    (∀ k, k < 3 → ((fun _ => JudgeOutcome.err "429 rate limit") k).isRateLimitErr = true) ∧
    (∃ ds, aggregate [("A", "fine answer")] "r"
        (some (fun _ => JudgeOutcome.err "429 rate limit")) noParse =
      .ok (heuristicScoring [("A", "fine answer")], ⟨3, ds⟩)) ∧
    (JudgeOutcome.err "boom").isErr = true ∧
    (JudgeOutcome.err "boom").isRateLimitErr = false ∧
    aggregate [("A", "fine answer")] "r" (some (fun _ => JudgeOutcome.err "boom")) noParse =
      .ok (heuristicScoring [("A", "fine answer")], ⟨1, []⟩) :=
  ⟨by decide, by decide, by decide, by decide,
    (c3_judged_retry_bound [("A", "fine answer")] "r"
      (fun _ => JudgeOutcome.err "429 rate limit") noParse
      (by decide) (by decide) (by decide)).1 (by decide),
    by decide, by decide,
    (c3_judged_retry_bound [("A", "fine answer")] "r"
      (fun _ => JudgeOutcome.err "boom") noParse
      (by decide) (by decide) (by decide)).2 (by decide) (by decide)⟩

/-! ## Claim C9: retry delay computation -/

/-- C9: when the first two judge attempts fail rate-limited, the loop sleeps
before attempt 1 for `baseDelay * 1` and before attempt 2 for `baseDelay * 2`
milliseconds (linear, not exponential), where each attempt's base delay is the
`try again in Ns` hint of the previous failure converted to milliseconds when
one is present, and 20000 ms otherwise. -/
theorem c9_retry_delay_linear (agentOutputs : List (String × String))
    (originalRequest : String) (call : Nat → JudgeOutcome)
    (parse : String → Option ParsedVerdict)
    (hne : agentOutputs ≠ []) (hreq : (strTrim originalRequest).data ≠ [])
    (herr : allAreErrors agentOutputs = false)
    (h0 : (call 0).isRateLimitErr = true) (h1 : (call 1).isRateLimitErr = true) :
    (∃ r tr, aggregate agentOutputs originalRequest (some call) parse = .ok (r, tr) ∧
      tr.delays = [computeBaseDelay (some (call 0).errMsg) * 1,
        computeBaseDelay (some (call 1).errMsg) * 2]) ∧
    (∀ m s, parseRetryAfter m = some s → computeBaseDelay (some m) = s * 1000) ∧
    (∀ m, parseRetryAfter m = none → computeBaseDelay (some m) = 20000) := by
  refine ⟨?_, ?_, ?_⟩
  · cases hc0 : call 0 with
    | ok r => rw [hc0] at h0; simp [JudgeOutcome.isRateLimitErr] at h0
    | err m0 =>
      have hr0 : isRateLimit m0 = true := by
        rw [hc0] at h0; simpa [JudgeOutcome.isRateLimitErr] using h0
      cases hc1 : call 1 with
      | ok r => rw [hc1] at h1; simp [JudgeOutcome.isRateLimitErr] at h1
      | err m1 =>
        have hr1 : isRateLimit m1 = true := by
          rw [hc1] at h1; simpa [JudgeOutcome.isRateLimitErr] using h1
        rw [aggregate_judged_branch agentOutputs originalRequest call parse hne hreq herr]
        cases hc2 : call 2 with
        | ok resp =>
          have hl : aggLoop call parse (agentOutputs.map Prod.fst) (maxRetries + 1) 0 none [] =
              (some (llmResultOf (agentOutputs.map Prod.fst) parse resp), 3,
                [computeBaseDelay (some m0) * 1, computeBaseDelay (some m1) * 2]) := by
            simp [aggLoop, hc0, hc1, hc2, hr0, hr1, maxRetries]
          rw [hl]
          exact ⟨_, _, rfl, by simp [hc0, hc1, JudgeOutcome.errMsg]⟩
        | err m2 =>
          have hl : aggLoop call parse (agentOutputs.map Prod.fst) (maxRetries + 1) 0 none [] =
              (none, 3,
                [computeBaseDelay (some m0) * 1, computeBaseDelay (some m1) * 2]) := by
            simp [aggLoop, hc0, hc1, hc2, hr0, hr1, maxRetries]
          rw [hl]
          exact ⟨_, _, rfl, by simp [hc0, hc1, JudgeOutcome.errMsg]⟩
  · intro m s hp
    simp [computeBaseDelay, hp]
  · intro m hp
    simp [computeBaseDelay, hp]

theorem c9_witness :
    ([("A", "fine answer")] : List (String × String)) ≠ [] ∧
    (strTrim "r").data ≠ [] ∧
    allAreErrors [("A", "fine answer")] = false ∧
    ((fun k => JudgeOutcome.err
        (if k = 0 then "Rate limit: try again in 7s" else "429 too many")) 0).isRateLimitErr
      = true ∧
    ((fun k => JudgeOutcome.err
        (if k = 0 then "Rate limit: try again in 7s" else "429 too many")) 1).isRateLimitErr
      = true ∧
    parseRetryAfter "Rate limit: try again in 7s" = some 7 ∧
    parseRetryAfter "429 too many" = none ∧
    (∃ r tr, aggregate [("A", "fine answer")] "r"
        (some (fun k => JudgeOutcome.err
          (if k = 0 then "Rate limit: try again in 7s" else "429 too many"))) noParse =
          .ok (r, tr) ∧
      tr.delays = [7000, 40000]) := by
  refine ⟨by decide, by decide, by decide, by decide, by decide, by decide, by decide, ?_⟩
  obtain ⟨r, tr, heq, hds⟩ :=
    (c9_retry_delay_linear [("A", "fine answer")] "r"
      (fun k => JudgeOutcome.err
        (if k = 0 then "Rate limit: try again in 7s" else "429 too many")) noParse
      (by decide) (by decide) (by decide) (by decide) (by decide)).1
  refine ⟨r, tr, heq, ?_⟩
  rw [hds]
  decide

/-! ## Claim C8: judged reply without a decodable verdict block -/

/-- C8: with a judge whose first attempt succeeds, if no structured block is
found in the reply or the found block fails to decode, `aggregate` returns a
judged-method (`llm`) result whose synthesis is the whole reply and whose
winner is the first task name (the first key of the output mapping). -/
theorem c8_judged_parse_fallback (agentOutputs : List (String × String))
    (originalRequest : String) (call : Nat → JudgeOutcome)
    (parse : String → Option ParsedVerdict)
    (hne : agentOutputs ≠ []) (hreq : (strTrim originalRequest).data ≠ [])
    (herr : allAreErrors agentOutputs = false)
    (resp : String) (hcall : call 0 = .ok resp)
    (hparse : jsonExtract resp = none ∨
      ∃ b, jsonExtract resp = some b ∧ parse b = none) :
    aggregate agentOutputs originalRequest (some call) parse =
      .ok (⟨(agentOutputs.map Prod.fst).head?, some resp,
        some ["Review the synthesis above", "Implement based on agent recommendations"],
        none, "llm", false⟩, ⟨1, []⟩) := by
  rw [aggregate_judged_branch agentOutputs originalRequest call parse hne hreq herr]
  have hl : aggLoop call parse (agentOutputs.map Prod.fst) (maxRetries + 1) 0 none [] =
      (some (llmResultOf (agentOutputs.map Prod.fst) parse resp), 1, []) := by
    simp [aggLoop, hcall]
  rw [hl]
  have hres : llmResultOf (agentOutputs.map Prod.fst) parse resp =
      llmFallThrough (agentOutputs.map Prod.fst) resp := by
    rcases hparse with hj | ⟨b, hb, hp⟩
    · simp [llmResultOf, hj]
    · simp [llmResultOf, hb, hp]
  rw [hres]
  rfl

theorem c8_witness :
    ([("A", "good stuff")] : List (String × String)) ≠ [] ∧
    (strTrim "r").data ≠ [] ∧
    allAreErrors [("A", "good stuff")] = false ∧
    (fun _ => JudgeOutcome.ok "no json here") 0 = JudgeOutcome.ok "no json here" ∧
    jsonExtract "no json here" = none ∧
    aggregate [("A", "good stuff")] "r" (some (fun _ => JudgeOutcome.ok "no json here"))
        noParse =
      .ok (⟨([("A", "good stuff")].map Prod.fst).head?, some "no json here",
        some ["Review the synthesis above", "Implement based on agent recommendations"],
        none, "llm", false⟩, ⟨1, []⟩) :=
  ⟨by decide, by decide, by decide, rfl, by decide,
    c8_judged_parse_fallback [("A", "good stuff")] "r"
      (fun _ => JudgeOutcome.ok "no json here") noParse
      (by decide) (by decide) (by decide) "no json here" rfl (Or.inl (by decide))⟩

/-! ## Claim C1: complete, ordered result set -/

/-- C1: every `ok` outcome of `processAllAgents` carries exactly one entry per
task, in task-submission order (entry `i` belongs to task `i`); and outside
fallback mode, a task whose worker does not settle successfully contributes an
error-shaped entry (success flag false, error message present) rather than
being dropped. -/
theorem c1_job_result_set_complete (env : Env) (agents : List AgentDef)
    (guidelines : AgentDef → String) (context : String) (provider : Option String)
    (outcomes : Nat → WorkerOutcome) (rs : List AgentResponse) (n : Nat)
    (h : processAllAgents env agents guidelines context provider outcomes = .ok (rs, n)) :
    rs.length = agents.length ∧
    (∀ i, i < agents.length → ∃ a e, agents[i]? = some a ∧ rs[i]? = some e ∧
      e.agent = a.name) ∧
    (isFallbackMode env = false →
      ∀ i, i < agents.length → (outcomes i).isSuccess = false →
        ∃ e, rs[i]? = some e ∧ e.success = false ∧ e.error.isSome = true) := by
  unfold processAllAgents at h
  by_cases hfb : isFallbackMode env = true
  · rw [if_pos hfb] at h
    simp only [Except.ok.injEq, Prod.mk.injEq] at h
    obtain ⟨hrs, -⟩ := h
    subst hrs
    refine ⟨by simp, ?_, ?_⟩
    · intro i hi
      have ha : agents[i]? = some agents[i] := List.getElem?_eq_some_iff.mpr ⟨hi, rfl⟩
      exact ⟨agents[i], _, ha, by rw [List.getElem?_map, ha]; rfl, rfl⟩
    · intro hnf
      rw [hfb] at hnf
      exact absurd hnf (by simp)
  · rw [if_neg hfb] at h
    rcases hdp : (match provider with
      | some p => some p
      | none => getDefaultProvider env) with _ | p
    · rw [hdp] at h
      exact absurd h (by simp)
    · rw [hdp] at h
      simp only [Except.ok.injEq, Prod.mk.injEq] at h
      obtain ⟨hrs, -⟩ := h
      subst hrs
      refine ⟨mapIdxFrom_length _ _ _, ?_, ?_⟩
      · intro i hi
        have ha : agents[i]? = some agents[i] := List.getElem?_eq_some_iff.mpr ⟨hi, rfl⟩
        refine ⟨agents[i],
          agentEntryOfOutcome agents[i]
            (buildAgentPrompt agents[i] (guidelines agents[i]) context) (outcomes i),
          ha, ?_, ?_⟩
        · rw [mapIdxFrom_getElem?, ha]
          simp
        · cases outcomes i <;> rfl
      · intro _ i hi hout
        have ha : agents[i]? = some agents[i] := List.getElem?_eq_some_iff.mpr ⟨hi, rfl⟩
        have hidx : (mapIdxFrom (fun k a =>
            agentEntryOfOutcome a (buildAgentPrompt a (guidelines a) context) (outcomes k))
              0 agents)[i]? =
            some (agentEntryOfOutcome agents[i]
              (buildAgentPrompt agents[i] (guidelines agents[i]) context) (outcomes i)) := by
          rw [mapIdxFrom_getElem?, ha]
          simp
        refine ⟨_, hidx, ?_⟩
        rcases hoc : outcomes i with r | e | ⟨known, m⟩
        · rw [hoc] at hout
          simp [WorkerOutcome.isSuccess] at hout
        · simp [agentEntryOfOutcome]
        · simp [agentEntryOfOutcome]

/-- Concrete non-fallback run for the C1 witness: one task whose worker
fails. -/
def wEnvGroq : Env := ⟨none, none, none, some "k"⟩

def wAgent : AgentDef := ⟨"A", "R", "D", "F"⟩

def wFailEntry : AgentResponse :=
  agentEntryOfOutcome wAgent (buildAgentPrompt wAgent "g" "") (.msgFailure "boom")

theorem c1_witness :
    processAllAgents wEnvGroq [wAgent] (fun _ => "g") "" none (fun _ => .msgFailure "boom") =
      .ok ([wFailEntry], 1) ∧
    ([wFailEntry].length = 1 ∧
      (∀ i, i < [wAgent].length → ∃ a e, [wAgent][i]? = some a ∧ [wFailEntry][i]? = some e ∧
        e.agent = a.name) ∧
      (isFallbackMode wEnvGroq = false →
        ∀ i, i < [wAgent].length → ((fun _ => WorkerOutcome.msgFailure "boom") i).isSuccess
            = false →
          ∃ e, [wFailEntry][i]? = some e ∧ e.success = false ∧ e.error.isSome = true)) :=
  ⟨rfl, c1_job_result_set_complete wEnvGroq [wAgent] (fun _ => "g") "" none
    (fun _ => .msgFailure "boom") [wFailEntry] 1 rfl⟩

/-! ## Claim C10: fallback mode and the unreachable configuration error -/

/-- C10: in fallback mode (no key configured), `processAllAgents` returns —
without spawning a worker — one successful entry per agent whose response text
embeds the generated prompt; and for every environment and input the
`No available LLM provider` error branch is unreachable, because outside
fallback mode `getDefaultProvider` always yields a provider. -/
theorem c10_fallback_no_config_error (env : Env) (agents : List AgentDef)
    (guidelines : AgentDef → String) (context : String) (provider : Option String)
    (outcomes : Nat → WorkerOutcome) :
    (isFallbackMode env = true →
      ∃ entries, processAllAgents env agents guidelines context provider outcomes =
          .ok (entries, 0) ∧
        entries.length = agents.length ∧
        ∀ e ∈ entries, e.success = true ∧ e.fallbackMode = true ∧
          strContains (e.actualResponse.getD "") e.prompt = true) ∧
    (∀ msg, processAllAgents env agents guidelines context provider outcomes ≠
      .error msg) := by
  constructor
  · intro hfb
    refine ⟨_, by unfold processAllAgents; rw [if_pos hfb], by simp, ?_⟩
    intro e he
    obtain ⟨a, -, hea⟩ := List.mem_map.mp he
    subst hea
    refine ⟨rfl, rfl, ?_⟩
    show strContains (fallbackResponseText a.name (buildAgentPrompt a (guidelines a) context))
      (buildAgentPrompt a (guidelines a) context) = true
    unfold fallbackResponseText
    apply strContains_append_right
    exact strContains_append_self _ _
  · intro msg
    unfold processAllAgents
    by_cases hfb : isFallbackMode env = true
    · rw [if_pos hfb]
      simp
    · rw [if_neg hfb]
      rcases hp : provider with _ | p
    

      · have hd : (getDefaultProvider env).isSome = true :=
          getDefaultProvider_isSome_of_not_fallback env (by simpa using hfb)
        rcases hdp : getDefaultProvider env with _ | q
        · rw [hdp] at hd; simp at hd
        · simp [hdp]
      · simp

/-- All-keys-absent environment for the C10 witness. -/
def wEnvEmpty : Env := ⟨none, none, none, none⟩

theorem c10_witness :
    isFallbackMode wEnvEmpty = true ∧
    (∃ entries, processAllAgents wEnvEmpty [wAgent] (fun _ => "g") "" none
        (fun _ => .msgFailure "x") = .ok (entries, 0) ∧
      entries.length = [wAgent].length ∧
      ∀ e ∈ entries, e.success = true ∧ e.fallbackMode = true ∧
        strContains (e.actualResponse.getD "") e.prompt = true) ∧
    (∀ msg, processAllAgents wEnvEmpty [wAgent] (fun _ => "g") "" none
      (fun _ => .msgFailure "x") ≠ .error msg) :=
  ⟨by decide,
    (c10_fallback_no_config_error wEnvEmpty [wAgent] (fun _ => "g") "" none
      (fun _ => .msgFailure "x")).1 (by decide),
    (c10_fallback_no_config_error wEnvEmpty [wAgent] (fun _ => "g") "" none
      (fun _ => .msgFailure "x")).2⟩

/-! ## Claim C7: method values of the final synthesis -/

theorem aggLoop_some_method (call : Nat → JudgeOutcome) (parse : String → Option ParsedVerdict)
    (keys : List String) :
    ∀ fuel attempt lastError delays r a d,
      aggLoop call parse keys fuel attempt lastError delays = (some r, a, d) →
      r.method = "llm" := by
  intro fuel
  induction fuel with
  | zero =>
    intro attempt lastError delays r a d h
    exact absurd h (by simp [aggLoop])
  | succ fuel ih =>
    intro attempt lastError delays r a d h
    simp only [aggLoop] at h
    cases hc : call attempt with
    | ok resp =>
      rw [hc] at h
      simp only [Prod.mk.injEq, Option.some.injEq] at h
      obtain ⟨h1, -⟩ := h
      rw [← h1]
      unfold llmResultOf
      cases hj : jsonExtract resp with
      | none => rfl
      | some b =>
        cases hp : parse b with
        | none => simp [hp, llmFallThrough]
        | some pv => simp [hp, resultOfParsed]
    | err m =>
      rw [hc] at h
      by_cases hcond : (isRateLimit m && decide (attempt < maxRetries)) = true
      · simp only [hcond, if_true] at h
        exact ih _ _ _ _ _ _ h
      · simp [hcond] at h

/-- Whenever `aggregate` completes, the method is one of the three values
produced by its own branches. -/
theorem aggregate_ok_method (agentOutputs : List (String × String))
    (originalRequest : String) (judge : Option (Nat → JudgeOutcome))
    (parse : String → Option ParsedVerdict) (r : SynthesisResult) (tr : AggTrace)
    (h : aggregate agentOutputs originalRequest judge parse = .ok (r, tr)) :
    r.method = "llm" ∨ r.method = "heuristic" ∨ r.method = "error_fallback" := by
  unfold aggregate at h
  split at h
  · exact absurd h (by simp)
  split at h
  · exact absurd h (by simp)
  split at h
  · simp only [Except.ok.injEq, Prod.mk.injEq] at h
    obtain ⟨h1, -⟩ := h
    right; right
    rw [← h1]
    rfl
  · split at h
    · split at h
      · rename_i hloop
        simp only [Except.ok.injEq, Prod.mk.injEq] at h
        obtain ⟨h1, -⟩ := h
        left
        rw [← h1]
        exact aggLoop_some_method _ _ _ _ _ _ _ _ _ _ hloop
      · simp only [Except.ok.injEq, Prod.mk.injEq] at h
        obtain ⟨h1, -⟩ := h
        right; left
        rw [← h1]
        rfl
    · simp only [Except.ok.injEq, Prod.mk.injEq] at h
      obtain ⟨h1, -⟩ := h
      right; left
      rw [← h1]
      rfl

/-- C7 counterexample: a run in which the aggregation step throws (here: a
zero-task preset, so `aggregate` rejects the empty output set) produces a
final synthesis whose method is the fourth value `fallback`, refuting the
claim that only judged/heuristic/error-fallback reach the caller. -/
theorem c7_method_counterexample :
    (orchestrateWorkflow wEnvEmpty [] (fun _ => "g") "r" "" none (fun _ => .msgFailure "x")
      none noParse).toOption.map (fun wf => wf.finalSynthesis.method) = some "fallback" ∧
    ("fallback" : String) ≠ "llm" ∧ ("fallback" : String) ≠ "heuristic" ∧
    ("fallback" : String) ≠ "error_fallback" := by
  decide

/-- C7, amended: every completed workflow carries exactly one final synthesis,
and its method is `llm` (judged), `heuristic` or `error_fallback` whenever the
aggregation step completes — but when aggregation throws (empty output set or
empty request) the orchestrator's catch substitutes a result with the fourth
method value `fallback`. -/
theorem c7_method_values_amended (env : Env) (agents : List AgentDef)
    (guidelines : AgentDef → String) (userRequest context : String)
    (provider : Option String) (outcomes : Nat → WorkerOutcome)
    (judge : Option (Nat → JudgeOutcome)) (parse : String → Option ParsedVerdict)
    (wf : WorkflowResult)
    (h : orchestrateWorkflow env agents guidelines userRequest context provider outcomes
      judge parse = .ok wf) :
    wf.finalSynthesis.method = "llm" ∨ wf.finalSynthesis.method = "heuristic" ∨
    wf.finalSynthesis.method = "error_fallback" ∨ wf.finalSynthesis.method = "fallback" := by
  unfold orchestrateWorkflow at h
  cases hpa : processAllAgents env agents guidelines context provider outcomes with
  | error e =>
    rw [hpa] at h
    exact absurd h (by simp)
  | ok pr =>
    rcases pr with ⟨agentResponses, k⟩
    rw [hpa] at h
    cases hag : aggregate (collectOutputs agentResponses) userRequest judge parse with
    | error e2 =>
      simp only [hag] at h
      simp only [Except.ok.injEq] at h
      subst h
      right; right; right
      rfl
    | ok pr2 =>
      rcases pr2 with ⟨r, tr⟩
      have hm := aggregate_ok_method _ _ _ _ _ _ hag
      simp only [hag] at h
      simp only [Except.ok.injEq] at h
      subst h
      rcases hm with hm | hm | hm
      · exact Or.inl hm
      · exact Or.inr (Or.inl hm)
      · exact Or.inr (Or.inr (Or.inl hm))

theorem c7_witness :
    ∃ wf, orchestrateWorkflow wEnvEmpty [] (fun _ => "g") "r" "" none
        (fun _ => .msgFailure "x") none noParse = .ok wf ∧
      (wf.finalSynthesis.method = "llm" ∨ wf.finalSynthesis.method = "heuristic" ∨
       wf.finalSynthesis.method = "error_fallback" ∨
       wf.finalSynthesis.method = "fallback") := by
  cases hh : orchestrateWorkflow wEnvEmpty [] (fun _ => "g") "r" "" none
      (fun _ => .msgFailure "x") none noParse with
  | error e =>
    have hok : (orchestrateWorkflow wEnvEmpty [] (fun _ => "g") "r" "" none
        (fun _ => .msgFailure "x") none noParse).toOption.isSome = true := by decide
    rw [hh] at hok
    simp [Except.toOption] at hok
  | ok wf =>
    exact ⟨wf, rfl,
      c7_method_values_amended wEnvEmpty [] (fun _ => "g") "r" "" none
        (fun _ => .msgFailure "x") none noParse wf hh⟩
